import Mathlib

/-!
Shallow embedding of the poc-spaces-upload staging and upload pipeline
(src/main.go).  Bytes are modelled as `Nat`, byte streams as `List Nat`.
The gzip codec (Go package compress/gzip, an external library) is
abstracted as a `Codec`: a compression and a decompression function with
the round-trip law the library guarantees.  The sha256 digest function
(crypto/sha256, external) is passed as an explicit parameter
`digest : List Nat → List Nat`; the model records the exact byte stream
absorbed by the hash accumulator, so every theorem about the content hash
holds for the real sha256 by instantiation.
-/

/-- Abstract model of the compress/gzip codec used by the Blob writer chain.
The `roundtrip` field is the documented guarantee of the library: reading
back a fully flushed gzip stream yields the original bytes. -/
structure Codec where
  compress : List Nat → List Nat
  decompress : List Nat → List Nat
  roundtrip : ∀ b : List Nat, decompress (compress b) = b

/-- The identity codec: a degenerate but lawful `Codec` instance used to
evaluate the model on concrete inputs. -/
def idCodec : Codec where
  compress := fun b => b
  decompress := fun b => b
  roundtrip := fun _ => rfl

/-- State of one `Blob` (src/main.go lines 61 to 124): the composite writer
chain `mw = io.MultiWriter(ucw, hw)` with `ucw` counting uncompressed bytes
into the gzip writer `gw`, whose output runs through the compressed-byte
counter `ccw` into the staging file `File`.  The gzip writer buffers its
input; compressed output reaches the file when the writer is closed. -/
structure Blob where
  IsDir : Bool
  Reference : String
  /-- bytes currently stored in the staging file (written through ccw) -/
  fileBytes : List Nat
  /-- ccw.Count(): number of compressed bytes written to the file -/
  ccwCount : Nat
  /-- bytes accepted so far by the gzip writer gw (buffered until Close) -/
  gwInput : List Nat
  /-- whether gw.Close() has already run -/
  gwClosed : Bool
  /-- ucw.Count(): number of uncompressed bytes written -/
  ucwCount : Nat
  /-- the byte stream absorbed by the sha256 accumulator hw -/
  hwInput : List Nat
deriving DecidableEq

/-- NewBlob (src/main.go lines 78 to 97), successful path: fresh temporary
file, fresh counters, fresh hash accumulator, gzip writer open. -/
def NewBlob : Blob :=
  { IsDir := false
    Reference := ""
    fileBytes := []
    ccwCount := 0
    gwInput := []
    gwClosed := false
    ucwCount := 0
    hwInput := [] }

/-- Blob.Write (src/main.go lines 121 to 124): `blob.mw.Write(b)` delegates
the same raw bytes, in order, to ucw (which counts them and forwards them to
the gzip writer) and to the hash accumulator hw. -/
def Blob.Write (blob : Blob) (b : List Nat) : Blob :=
  { blob with
    ucwCount := blob.ucwCount + b.length
    gwInput := blob.gwInput ++ b
    hwInput := blob.hwInput ++ b }

/-- Blob.Close (src/main.go lines 100 to 103): `gw.Close()` flushes the
buffered compressor state, emitting the compressed stream through ccw into
the staging file, then the file is closed.  Closing an already closed gzip
writer emits nothing. -/
def Blob.Close (c : Codec) (blob : Blob) : Blob :=
  if blob.gwClosed then blob
  else
    let out := c.compress blob.gwInput
    { blob with
      fileBytes := blob.fileBytes ++ out
      ccwCount := blob.ccwCount + out.length
      gwClosed := true }

/-- Blob.Size (src/main.go lines 106 to 108): the compressed size,
`int64(blob.ccw.Count())`. -/
def Blob.Size (blob : Blob) : Nat :=
  blob.ccwCount

/-- Blob.UncompressedSize (src/main.go lines 112 to 114):
`int64(blob.ucw.Count())`. -/
def Blob.UncompressedSize (blob : Blob) : Nat :=
  blob.ucwCount

/-- Blob.Hash (src/main.go lines 117 to 119): `blob.hw.Sum(nil)`, the digest
of exactly the bytes absorbed by the hash accumulator. -/
def Blob.Hash (digest : List Nat → List Nat) (blob : Blob) : List Nat :=
  digest blob.hwInput

/-- Writing a sequence of chunks through Blob.Write, in order. -/
def writeChunks (blob : Blob) (chunks : List (List Nat)) : Blob :=
  chunks.foldl Blob.Write blob

/-- The blob produced by streaming `content` through the writer chain and
closing it, as ReaderToBlob does on its successful path. -/
def stagedBlob (c : Codec) (content : List Nat) : Blob :=
  Blob.Close c (Blob.Write NewBlob content)

/-- Result of running a Go function that can return a value, return an
error, or panic. -/
inductive GoResult (α : Type) where
  | ok (a : α)
  | err (msg : String)
  | panicked (msg : String)
deriving DecidableEq

/-- The Go runtime message for dereferencing a nil pointer. -/
def nilDerefMsg : String :=
  "runtime error: invalid memory address or nil pointer dereference"

/-- ReaderToBlob (src/main.go lines 138 to 158).  `tmpOk` records whether
the temporary-file creation inside NewBlob succeeds; `copyErr` records a
failure of `io.Copy` from the reader.  When NewBlob fails it returns
`(nil, err)` and the code then runs `blob.Close()` on the nil blob pointer
(line 142), which dereferences `blob.gw` and panics. -/
def ReaderToBlob (c : Codec) (tmpOk : Bool) (copyErr : Option String) (input : List Nat) :
    GoResult Blob :=
  if tmpOk = false then
    GoResult.panicked nilDerefMsg
  else
    match copyErr with
    | some m => GoResult.err ("Error while processing: " ++ m)
    | none => GoResult.ok (Blob.Close c (Blob.Write NewBlob input))

/-- Lowercase hexadecimal digit, as produced by the fmt verb `%x`. -/
def hexDigit (n : Nat) : Char :=
  Char.ofNat (if n < 10 then 48 + n else 87 + n)

/-- Two lowercase hex digits for one byte. -/
def hexByte (b : Nat) : List Char :=
  [hexDigit (b / 16 % 16), hexDigit (b % 16)]

/-- `fmt.Sprintf("%x", bytes)`: lowercase hex encoding of a byte slice. -/
def hexOfBytes (bs : List Nat) : List Char :=
  (bs.map hexByte).flatten

/-- The key UploadBlob writes to (src/main.go line 184):
`fmt.Sprintf("blob/%x", blob.Hash())` with the hash method called. -/
def uploadKeyOf (d : List Nat) : String :=
  "blob/" ++ String.mk (hexOfBytes d)

/-- The key CheckDuplicate queries (src/main.go line 162):
`fmt.Sprintf("blob/%x", blob.Hash)`.  `blob.Hash` is a method VALUE, not a
call, so fmt formats a func value with the verb x and yields a bad-verb
string carrying the function address `addr`; the digest never appears. -/
def checkKeyOf (addr : String) : String :=
  "blob/" ++ "%!x(func() []byte=" ++ addr ++ ")"

/-- Outcome of resolving a key against the object store: the lazy GetObject
call fails, the subsequent Stat fails (also how an absent object surfaces),
or an object with a declared size is found. -/
inductive LookupOutcome where
  | getErr
  | statErr
  | found (size : Nat)
deriving DecidableEq

/-- CheckDuplicate (src/main.go lines 160 to 181): resolve the (malformed)
remote file name; any failure of GetObject or Stat yields false; a resolved
object is a duplicate exactly when its declared size equals the local
blob's compressed size. -/
def CheckDuplicate (lookup : String → LookupOutcome) (addr : String) (blob : Blob) : Bool :=
  let remoteFilename := checkKeyOf addr
  match lookup remoteFilename with
  | LookupOutcome.getErr => false
  | LookupOutcome.statErr => false
  | LookupOutcome.found size => if blob.Size ≠ size then false else true

/-- A stored object: its size plus the user metadata attached by UploadBlob
(uncompressed size, reference label, directory flag). -/
structure ObjVal where
  size : Nat
  ucMeta : Nat
  refMeta : String
  dirMeta : Bool
deriving DecidableEq

/-- Remote store content, keyed by object name. -/
abbrev Store : Type :=
  List (String × ObjVal)

def storeGet : Store → String → Option ObjVal
  | [], _ => none
  | (k2, v) :: rest, k => if k2 = k then some v else storeGet rest k

def storePut : Store → String → ObjVal → Store
  | [], k, v => [(k, v)]
  | (k2, w) :: rest, k, v =>
      if k2 = k then (k, v) :: rest else (k2, w) :: storePut rest k v

def storeDel (store : Store) (k : String) : Store :=
  store.filter (fun kv => !(kv.1 = k))

/-- The store-backed lookup used by the handlers: GetObject is lazy and
succeeds even for an absent key; Stat then fails for an absent object. -/
def lookupOfStore (store : Store) (k : String) : LookupOutcome :=
  match storeGet store k with
  | some v => LookupOutcome.found v.size
  | none => LookupOutcome.statErr

/-- Mutable state threaded through an upload handler: the remote store, the
number of successful FPutObject writes, and the per-item status lines. -/
inductive Outcome where
  | errLine
  | replacedLine (name : String)
  | uploadedLine (name : String)
  | dirDoneLine
deriving DecidableEq

structure RunState where
  store : Store
  putCount : Nat
  out : List Outcome
deriving DecidableEq

/-- UploadBlob (src/main.go lines 183 to 216): writes the staging file to
the store under `blob/` plus the hex content hash, attaching the user
metadata; on failure it best-effort deletes the partially written object
and returns the wrapped error. -/
def UploadBlob (digest : List Nat → List Nat) (blob : Blob) (uploadOk : Bool)
    (st : RunState) : Option String × RunState :=
  let remoteFilename := uploadKeyOf (blob.Hash digest)
  if uploadOk then
    (none,
      { st with
        store := storePut st.store remoteFilename
          ⟨blob.Size, blob.UncompressedSize, blob.Reference, blob.IsDir⟩
        putCount := st.putCount + 1 })
  else
    (some "Error while uploading blob",
      { st with store := storeDel st.store remoteFilename })

/-- One multipart item of a batch request, abstracted to the outcomes of
its external interactions: whether `file.Open()` succeeds, whether the
temporary file inside NewBlob can be created, whether `io.Copy` from the
part reader fails, the payload bytes, whether FPutObject would succeed,
and the client-supplied file name. -/
structure Item where
  openOk : Bool
  tmpOk : Bool
  copyErr : Option String
  content : List Nat
  uploadOk : Bool
  Filename : String
deriving DecidableEq

/-- Final state of a handler run: normal return, or a panic escaping the
handler. -/
inductive RunEnd where
  | finished (st : RunState)
  | panickedEnd (st : RunState) (msg : String)
deriving DecidableEq

/-- The per-item loop of multiUpload (src/main.go lines 473 to 505).
A failed Open is skipped with `continue` and prints nothing; a
ReaderToBlob error prints an error line and returns, abandoning the rest
of the batch; a confirmed duplicate prints a replaced line and continues;
an UploadBlob error prints an error line and returns; a successful upload
prints an uploaded line and continues. -/
def multiUpload (c : Codec) (digest : List Nat → List Nat) (addr : String) :
    List Item → RunState → RunEnd
  | [], st => RunEnd.finished st
  | item :: rest, st =>
    if item.openOk = false then multiUpload c digest addr rest st
    else
      match ReaderToBlob c item.tmpOk item.copyErr item.content with
      | GoResult.panicked m => RunEnd.panickedEnd st m
      | GoResult.err _ => RunEnd.finished { st with out := st.out ++ [Outcome.errLine] }
      | GoResult.ok blob0 =>
        let blob := { blob0 with Reference := item.Filename }
        if CheckDuplicate (lookupOfStore st.store) addr blob then
          multiUpload c digest addr rest
            { st with out := st.out ++ [Outcome.replacedLine item.Filename] }
        else
          let res := UploadBlob digest blob item.uploadOk st
          match res.1 with
          | some _ => RunEnd.finished { res.2 with out := res.2.out ++ [Outcome.errLine] }
          | none =>
            multiUpload c digest addr rest
              { res.2 with out := res.2.out ++ [Outcome.uploadedLine item.Filename] }

/-- directoryUpload (src/main.go lines 389 to 441), after form parsing: a
single Blob is created with IsDir set, the synthesized tar stream
`payload` is written through the composite writer, the tar writer and the
blob are closed, and UploadBlob runs directly.  No CheckDuplicate call
appears in this handler, and an upload error is raised with panic. -/
def directoryUpload (c : Codec) (digest : List Nat → List Nat) (tmpOk : Bool)
    (payload : List Nat) (uploadOk : Bool) (st : RunState) : RunEnd :=
  if tmpOk = false then
    RunEnd.finished { st with out := st.out ++ [Outcome.errLine] }
  else
    let blob := Blob.Close c (Blob.Write { NewBlob with IsDir := true } payload)
    let res := UploadBlob digest blob uploadOk st
    match res.1 with
    | some m => RunEnd.panickedEnd res.2 m
    | none => RunEnd.finished { res.2 with out := res.2.out ++ [Outcome.dirDoneLine] }

/-- A node of the destination filesystem used by the extractor model. -/
inductive FsNode where
  | dir
  | file (contents : List Nat)
  | symlink (target : String)
deriving DecidableEq

/-- Destination filesystem: association of absolute paths to nodes. -/
abbrev Fs : Type :=
  List (String × FsNode)

def fsGet : Fs → String → Option FsNode
  | [], _ => none
  | (k2, v) :: rest, k => if k2 = k then some v else fsGet rest k

def fsPut : Fs → String → FsNode → Fs
  | [], k, v => [(k, v)]
  | (k2, w) :: rest, k, v =>
      if k2 = k then (k, v) :: rest else (k2, w) :: fsPut rest k v

/-- Tar entry type flags distinguished by the extractor and archiver. -/
inductive TypeFlagT where
  | tDir
  | tReg
  | tSymlink
  | tOther
deriving DecidableEq

/-- One tar entry as yielded by the tar reader. -/
structure TEntry where
  name : String
  tflag : TypeFlagT
  mode : Nat
  body : List Nat
  linkname : String
deriving DecidableEq

/-- Writing `new` into an existing file opened with O_CREATE and O_RDWR but
WITHOUT O_TRUNC: bytes are overwritten from offset zero and any longer
tail of the previous contents remains. -/
def overwriteBytes (new old : List Nat) : List Nat :=
  new ++ old.drop new.length

/-- Untargz (src/main.go lines 282 to 356), at the granularity of decoded
tar entries.  Directory entries are created only when absent; regular-file
entries are opened with `os.OpenFile(target, os.O_CREATE|os.O_RDWR, mode)`
and the entry body is copied over the existing contents; symlink entries
are created with os.Symlink, which fails if the target exists; unknown
entry types are logged and skipped.  Any filesystem error aborts. -/
def Untargz (dst : String) : List TEntry → Fs → Except String Fs
  | [], fs => Except.ok fs
  | e :: rest, fs =>
    let target := dst ++ "/" ++ e.name
    match e.tflag with
    | TypeFlagT.tDir =>
      match fsGet fs target with
      | some _ => Untargz dst rest fs
      | none => Untargz dst rest (fsPut fs target FsNode.dir)
    | TypeFlagT.tReg =>
      match fsGet fs target with
      | some (FsNode.file old) =>
          Untargz dst rest (fsPut fs target (FsNode.file (overwriteBytes e.body old)))
      | some FsNode.dir => Except.error "open: is a directory"
      | some (FsNode.symlink _) => Except.error "open through symlink not modelled"
      | none => Untargz dst rest (fsPut fs target (FsNode.file e.body))
    | TypeFlagT.tSymlink =>
      match fsGet fs target with
      | some _ => Except.error "symlink: file exists"
      | none => Untargz dst rest (fsPut fs target (FsNode.symlink e.linkname))
    | TypeFlagT.tOther => Untargz dst rest fs

/-- Boolean prefix test on character lists. -/
def isPre : List Char → List Char → Bool
  | [], _ => true
  | _ :: _, [] => false
  | a :: as, b :: bs => a == b && isPre as bs

/-- Fuel-indexed scanner behind `goReplace`: the fuel only bounds the scan
length so that the recursion is structural; every call supplies fuel at
least the length of the scanned list, which keeps the zero-fuel arm
unreachable. -/
def goReplaceF : Nat → List Char → List Char → List Char
  | _, s, [] => s
  | _, [], _ :: _ => []
  | 0, s, _ :: _ => s
  | fuel + 1, c :: cs, p :: ps =>
    if isPre (p :: ps) (c :: cs) then goReplaceF fuel (cs.drop ps.length) (p :: ps)
    else c :: goReplaceF fuel cs (p :: ps)

/-- `strings.Replace(s, pat, "", -1)`: remove every non-overlapping
occurrence of `pat` from `s`, scanning left to right.  Go returns `s`
unchanged when `pat` is empty and the replacement is empty. -/
def goReplace (s pat : List Char) : List Char :=
  goReplaceF s.length s pat

/-- Whether `pat` occurs as a contiguous sublist of `s`. -/
def containsSub (pat : List Char) : List Char → Bool
  | [] => isPre pat []
  | c :: cs => isPre pat (c :: cs) || containsSub pat cs

/-- `strings.TrimPrefix(s, pre)`. -/
def trimLeading (s pre : List Char) : List Char :=
  if isPre pre s then s.drop pre.length else s

/-- The path separator. -/
def sepChar : Char := '/'

/-- Filesystem entry kinds seen by the walk in TarDir.  An entry that is
neither a directory, a regular file, nor a symlink (device, fifo, ...) is
still given a header by TarDir; `wother` carries the tar type-flag byte
tar.FileInfoHeader derives from its mode and, for device nodes, the
device numbers the header then carries. -/
inductive WalkNode where
  | wdir
  | wreg (contents : List Nat)
  | wsym
  | wother (tflagByte : Nat) (devmajor : Nat) (devminor : Nat)
deriving DecidableEq

/-- One entry visited by `filepath.Walk`, in walk (lexical) order: the path
relative to the walk root (empty for the root itself), and every piece of
FileInfo data tar.FileInfoHeader copies into the header — permission
bits, modification time, entry kind, and the stat-derived owner and
timestamp fields (uid, gid, user and group names, access and change
times) that the tar writer also encodes (ustar owner fields, PAX atime
and ctime records when the times are nonzero).  TarDir resets only the
modification time.  The symlink target carried by the filesystem is
irrelevant to the archive: TarDir passes `fi.Name()` as the link argument
of tar.FileInfoHeader, so the emitted linkname is the base name of the
entry path. -/
structure WalkEntry where
  rel : List Char
  perm : Nat
  mtime : Int
  node : WalkNode
  uid : Nat
  gid : Nat
  uname : List Char
  gname : List Char
  atime : Int
  ctime : Int
deriving DecidableEq

/-- The part of a walk entry that the archive stream depends on once the
modification time has been forced to the sentinel: everything the header
carries except the modification time. -/
structure EntryKey where
  rel : List Char
  perm : Nat
  node : WalkNode
  uid : Nat
  gid : Nat
  uname : List Char
  gname : List Char
  atime : Int
  ctime : Int
deriving DecidableEq

def keyPart (e : WalkEntry) : EntryKey :=
  ⟨e.rel, e.perm, e.node, e.uid, e.gid, e.uname, e.gname, e.atime, e.ctime⟩

/-- One serialized tar header plus body as emitted by TarDir: every header
field the Go tar writer encodes from the FileInfoHeader result — name,
mode, size, the (reset) modification time, type-flag byte, linkname,
owner ids and names, access and change times (written as PAX records when
nonzero), device numbers — followed by the body bytes.  Equal records
serialize to equal bytes and distinct records to distinct bytes. -/
structure TarOut where
  name : List Char
  mode : Nat
  size : Nat
  mtime : Int
  tflag : Nat
  linkname : List Char
  uid : Nat
  gid : Nat
  uname : List Char
  gname : List Char
  atime : Int
  ctime : Int
  devmajor : Nat
  devminor : Nat
  body : List Nat
deriving DecidableEq

/-- The tar type-flag byte tar.FileInfoHeader assigns: 53 is the byte of
the directory flag, 48 of the regular-file flag, 50 of the symlink flag;
other kinds keep the byte derived from their mode. -/
def tflagByteOf : WalkNode → Nat
  | WalkNode.wdir => 53
  | WalkNode.wreg _ => 48
  | WalkNode.wsym => 50
  | WalkNode.wother t _ _ => t

def devMajorOf : WalkNode → Nat
  | WalkNode.wother _ ma _ => ma
  | _ => 0

def devMinorOf : WalkNode → Nat
  | WalkNode.wother _ _ mi => mi
  | _ => 0

def bodyOf : WalkNode → List Nat
  | WalkNode.wreg contents => contents
  | _ => []

def sizeOfNode : WalkNode → Nat
  | WalkNode.wreg contents => contents.length
  | _ => 0

/-- The base name of a path: the suffix after the last separator. -/
def baseName (l : List Char) : List Char :=
  (l.reverse.takeWhile (fun c => c != sepChar)).reverse

/-- The full path handed to the walk function for an entry: the root itself
for the root entry, otherwise root, separator, relative path. -/
def fullPath (src : List Char) (e : WalkEntry) : List Char :=
  if e.rel = [] then src else src ++ sepChar :: e.rel

/-- The header name computed by TarDir (src/main.go line 248):
`strings.TrimPrefix(strings.Replace(file, src, "", -1), "/")`.  Note that
Replace removes EVERY occurrence of the root string, not only the leading
one. -/
def tarName (src full : List Char) : List Char :=
  trimLeading (goReplace full src) [sepChar]

/-- The header and body TarDir emits for one walked entry (src/main.go
lines 231 to 276): tar.FileInfoHeader copies the FileInfo and stat data
(mode, size, owner ids and names, access and change times, device
numbers) into the header, the code then resets ONLY the modification time
to the zero sentinel (line 245) and rewrites the name with tarName; for a
regular file the byte contents follow as the body. -/
def entryOut (src : List Char) (e : WalkEntry) : TarOut :=
  { name := tarName src (fullPath src e)
    mode := e.perm
    size := sizeOfNode e.node
    mtime := 0
    tflag := tflagByteOf e.node
    linkname := match e.node with
      | WalkNode.wsym => baseName (fullPath src e)
      | _ => []
    uid := e.uid
    gid := e.gid
    uname := e.uname
    gname := e.gname
    atime := e.atime
    ctime := e.ctime
    devmajor := devMajorOf e.node
    devminor := devMinorOf e.node
    body := bodyOf e.node }

/-- TarDir (src/main.go lines 218 to 278): the archive stream produced by
walking the tree rooted at `src`, with `es` the entries in walk order. -/
def TarDir (src : List Char) (es : List WalkEntry) : List TarOut :=
  es.map (entryOut src)

/-- The archive record an entry would contribute if the name computation
reproduced exactly the relative path. -/
def canonOut (k : EntryKey) : TarOut :=
  { name := k.rel
    mode := k.perm
    size := sizeOfNode k.node
    mtime := 0
    tflag := tflagByteOf k.node
    linkname := match k.node with
      | WalkNode.wsym => baseName k.rel
      | _ => []
    uid := k.uid
    gid := k.gid
    uname := k.uname
    gname := k.gname
    atime := k.atime
    ctime := k.ctime
    devmajor := devMajorOf k.node
    devminor := devMinorOf k.node
    body := bodyOf k.node }

/-- Erase the client-supplied file name from a status line, keeping its
kind. -/
def Outcome.shape : Outcome → Outcome
  | Outcome.replacedLine _ => Outcome.replacedLine ""
  | Outcome.uploadedLine _ => Outcome.uploadedLine ""
  | o => o

/-- Erase the reference label from stored user metadata. -/
def ObjVal.eraseRef (v : ObjVal) : ObjVal :=
  { v with refMeta := "" }

/-- A run state with every occurrence of the user-controlled reference
label erased: what remains is the addressing, dedup and control-flow
content of the state. -/
def RunState.shape (st : RunState) : RunState :=
  ⟨st.store.map (fun kv => (kv.1, kv.2.eraseRef)), st.putCount, st.out.map Outcome.shape⟩

def RunEnd.shape : RunEnd → RunEnd
  | RunEnd.finished st => RunEnd.finished st.shape
  | RunEnd.panickedEnd st m => RunEnd.panickedEnd st.shape m

theorem isPre_self_append (p r : List Char) : isPre p (p ++ r) = true := by
  induction p with
  | nil => rfl
  | cons a as ih => simp [isPre, ih]

theorem drop_len_append (a b : List Char) : (a ++ b).drop a.length = b := by
  induction a with
  | nil => rfl
  | cons x xs ih => simp

theorem goReplaceF_fuel (fuel1 : Nat) :
    ∀ (fuel2 : Nat) (s pat : List Char), s.length ≤ fuel1 → s.length ≤ fuel2 →
      goReplaceF fuel1 s pat = goReplaceF fuel2 s pat := by
  induction fuel1 with
  | zero =>
    intro fuel2 s pat h1 _
    have hs : s = [] := by
      cases s with
      | nil => rfl
      | cons a as => simp at h1
    subst hs
    cases pat <;> cases fuel2 <;> rfl
  | succ f ih =>
    intro fuel2 s pat h1 h2
    cases pat with
    | nil => cases s <;> cases fuel2 <;> rfl
    | cons p ps =>
      cases s with
      | nil => cases fuel2 <;> rfl
      | cons c cs =>
        cases fuel2 with
        | zero => simp at h2
        | succ g =>
          have hcs1 : cs.length ≤ f := by simp at h1; omega
          have hcs2 : cs.length ≤ g := by simp at h2; omega
          by_cases hp : isPre (p :: ps) (c :: cs) = true
          · simp only [goReplaceF, if_pos hp]
            exact ih g (cs.drop ps.length) (p :: ps)
              (by simp [List.length_drop]; omega) (by simp [List.length_drop]; omega)
          · simp only [goReplaceF, if_neg hp]
            rw [ih g cs (p :: ps) hcs1 hcs2]

theorem goReplace_append_self (pat rest : List Char) (h : pat ≠ []) :
    goReplace (pat ++ rest) pat = goReplace rest pat := by
  cases pat with
  | nil => exact absurd rfl h
  | cons p ps =>
    show goReplaceF (p :: (ps ++ rest)).length (p :: (ps ++ rest)) (p :: ps)
      = goReplaceF rest.length rest (p :: ps)
    have hpre : isPre (p :: ps) (p :: (ps ++ rest)) = true := isPre_self_append (p :: ps) rest
    simp only [List.length_cons, goReplaceF, if_pos hpre, drop_len_append]
    exact goReplaceF_fuel (ps ++ rest).length rest.length rest (p :: ps)
      (by simp [List.length_append]) (le_refl _)

theorem goReplaceF_not_contains (s : List Char) :
    ∀ (fuel : Nat) (pat : List Char), s.length ≤ fuel → pat ≠ [] →
      containsSub pat s = false → goReplaceF fuel s pat = s := by
  induction s with
  | nil =>
    intro fuel pat _ hp _
    cases pat with
    | nil => exact absurd rfl hp
    | cons p ps => cases fuel <;> rfl
  | cons c cs ih =>
    intro fuel pat hf hp hc
    cases pat with
    | nil => exact absurd rfl hp
    | cons p ps =>
      cases fuel with
      | zero => simp at hf
      | succ f =>
        simp only [containsSub, Bool.or_eq_false_iff] at hc
        simp only [goReplaceF]
        rw [ih f (p :: ps) (by simp at hf; omega) hp hc.2]
        simp [hc.1]

theorem goReplace_not_contains (s pat : List Char) (hp : pat ≠ [])
    (hc : containsSub pat s = false) : goReplace s pat = s :=
  goReplaceF_not_contains s s.length pat (le_refl _) hp hc

theorem trimLeading_sep_cons (rel : List Char) :
    trimLeading (sepChar :: rel) [sepChar] = rel := by
  simp [trimLeading, isPre]

theorem trimLeading_nil_sep : trimLeading [] [sepChar] = [] := by
  simp [trimLeading, isPre]

theorem goReplace_self (src : List Char) (h : src ≠ []) : goReplace src src = [] := by
  have h1 : goReplace (src ++ []) src = goReplace [] src := goReplace_append_self src [] h
  rw [List.append_nil] at h1
  rw [h1]
  cases src with
  | nil => exact absurd rfl h
  | cons p ps => rfl

theorem tarName_root (src : List Char) (h : src ≠ []) : tarName src src = [] := by
  rw [tarName, goReplace_self src h, trimLeading_nil_sep]

theorem tarName_rel (src rel : List Char) (h : src ≠ [])
    (hocc : containsSub src (sepChar :: rel) = false) :
    tarName src (src ++ sepChar :: rel) = rel := by
  rw [tarName, goReplace_append_self src (sepChar :: rel) h,
    goReplace_not_contains (sepChar :: rel) src h hocc, trimLeading_sep_cons]

theorem takeWhile_append_stop (p : Char → Bool) (c : Char) (hc : p c = false)
    (a b : List Char) : (a ++ c :: b).takeWhile p = a.takeWhile p := by
  induction a with
  | nil => simp [List.takeWhile_cons, hc]
  | cons x xs ih =>
    cases hx : p x <;> simp [List.takeWhile_cons, hx, ih]

theorem baseName_append (src rel : List Char) :
    baseName (src ++ sepChar :: rel) = baseName rel := by
  unfold baseName
  rw [List.reverse_append, List.reverse_cons, List.append_assoc, List.singleton_append]
  rw [takeWhile_append_stop _ sepChar (by simp) rel.reverse src.reverse]

theorem entryOut_eq_canon (src : List Char) (e : WalkEntry) (h : src ≠ [])
    (hocc : e.rel ≠ [] → containsSub src (sepChar :: e.rel) = false)
    (hroot : e.rel = [] → e.node ≠ WalkNode.wsym) :
    entryOut src e = canonOut (keyPart e) := by
  obtain ⟨rel, perm, mtime, node, uid, gid, uname, gname, atime, ctime⟩ := e
  by_cases hr : rel = []
  · subst hr
    have hnode : node ≠ WalkNode.wsym := hroot rfl
    cases node with
    | wsym => exact absurd rfl hnode
    | wdir => simp [entryOut, canonOut, keyPart, fullPath, tarName_root src h]
    | wreg contents => simp [entryOut, canonOut, keyPart, fullPath, tarName_root src h]
    | wother t ma mi => simp [entryOut, canonOut, keyPart, fullPath, tarName_root src h]
  · have hname : tarName src (src ++ sepChar :: rel) = rel :=
      tarName_rel src rel h (hocc hr)
    cases node with
    | wsym => simp [entryOut, canonOut, keyPart, fullPath, hr, hname, baseName_append]
    | wdir => simp [entryOut, canonOut, keyPart, fullPath, hr, hname]
    | wreg contents => simp [entryOut, canonOut, keyPart, fullPath, hr, hname]
    | wother t ma mi => simp [entryOut, canonOut, keyPart, fullPath, hr, hname]

theorem writeChunks_hwInput (chunks : List (List Nat)) (b : Blob) :
    (writeChunks b chunks).hwInput = b.hwInput ++ chunks.flatten := by
  induction chunks generalizing b with
  | nil => simp [writeChunks]
  | cons c cs ih =>
    show (writeChunks (b.Write c) cs).hwInput = _
    rw [ih]
    simp [Blob.Write]

theorem writeChunks_gwInput (chunks : List (List Nat)) (b : Blob) :
    (writeChunks b chunks).gwInput = b.gwInput ++ chunks.flatten := by
  induction chunks generalizing b with
  | nil => simp [writeChunks]
  | cons c cs ih =>
    show (writeChunks (b.Write c) cs).gwInput = _
    rw [ih]
    simp [Blob.Write]

theorem writeChunks_gwClosed (chunks : List (List Nat)) (b : Blob) :
    (writeChunks b chunks).gwClosed = b.gwClosed := by
  induction chunks generalizing b with
  | nil => rfl
  | cons c cs ih =>
    show (writeChunks (b.Write c) cs).gwClosed = _
    rw [ih]
    rfl

theorem writeChunks_fileBytes (chunks : List (List Nat)) (b : Blob) :
    (writeChunks b chunks).fileBytes = b.fileBytes := by
  induction chunks generalizing b with
  | nil => rfl
  | cons c cs ih =>
    show (writeChunks (b.Write c) cs).fileBytes = _
    rw [ih]
    rfl

theorem close_hwInput (c : Codec) (blob : Blob) :
    (Blob.Close c blob).hwInput = blob.hwInput := by
  unfold Blob.Close
  split <;> rfl

theorem checkDuplicate_ref_irrel (lookup : String → LookupOutcome) (addr : String)
    (b : Blob) (r : String) :
    CheckDuplicate lookup addr { b with Reference := r } = CheckDuplicate lookup addr b := by
  cases h : lookup (checkKeyOf addr) <;> simp [CheckDuplicate, h, Blob.Size]

theorem storePut_map_eraseRef (s : Store) (k : String) (v1 v2 : ObjVal)
    (hv : v1.eraseRef = v2.eraseRef) :
    (storePut s k v1).map (fun kv => (kv.1, kv.2.eraseRef))
      = (storePut s k v2).map (fun kv => (kv.1, kv.2.eraseRef)) := by
  induction s with
  | nil => simp [storePut, hv]
  | cons kv rest ih =>
    obtain ⟨k2, w⟩ := kv
    by_cases hk : k2 = k <;> simp [storePut, hk, hv, ih]

theorem multiUpload_step_upload (c : Codec) (digest : List Nat → List Nat) (addr : String)
    (item : Item) (rest : List Item) (st : RunState)
    (h1 : item.openOk = true) (h2 : item.tmpOk = true) (h3 : item.copyErr = none)
    (hdup : CheckDuplicate (lookupOfStore st.store) addr
      { stagedBlob c item.content with Reference := item.Filename } = false)
    (h5 : item.uploadOk = true) :
    multiUpload c digest addr (item :: rest) st
      = multiUpload c digest addr rest
          { store := storePut st.store (uploadKeyOf (digest item.content))
              ⟨(stagedBlob c item.content).Size, (stagedBlob c item.content).UncompressedSize,
               item.Filename, false⟩
            putCount := st.putCount + 1
            out := st.out ++ [Outcome.uploadedLine item.Filename] } := by
  simp [stagedBlob, Blob.Close, Blob.Write, NewBlob] at hdup
  simp [multiUpload, ReaderToBlob, UploadBlob, stagedBlob, Blob.Close, Blob.Write, Blob.Size,
    Blob.UncompressedSize, Blob.Hash, NewBlob, h1, h2, h3, h5, hdup]

theorem multiUpload_single (c : Codec) (digest : List Nat → List Nat) (addr : String)
    (content : List Nat) (uploadOk : Bool) (n : String) (st : RunState) :
    multiUpload c digest addr [⟨true, true, none, content, uploadOk, n⟩] st
      = if CheckDuplicate (lookupOfStore st.store) addr (stagedBlob c content) then
          RunEnd.finished { st with out := st.out ++ [Outcome.replacedLine n] }
        else if uploadOk then
          RunEnd.finished
            { store := storePut st.store (uploadKeyOf (digest content))
                ⟨(stagedBlob c content).Size, (stagedBlob c content).UncompressedSize, n, false⟩
              putCount := st.putCount + 1
              out := st.out ++ [Outcome.uploadedLine n] }
        else
          RunEnd.finished
            { st with
              store := storeDel st.store (uploadKeyOf (digest content))
              out := st.out ++ [Outcome.errLine] } := by
  rw [show ∀ b : Blob, CheckDuplicate (lookupOfStore st.store) addr b
      = CheckDuplicate (lookupOfStore st.store) addr { b with Reference := n } from
    fun b => (checkDuplicate_ref_irrel (lookupOfStore st.store) addr b n).symm]
  by_cases hdup : CheckDuplicate (lookupOfStore st.store) addr
      { stagedBlob c content with Reference := n } = true
  · simp [stagedBlob, Blob.Close, Blob.Write, NewBlob] at hdup
    simp [multiUpload, ReaderToBlob, stagedBlob, Blob.Close, Blob.Write, NewBlob, hdup]
  · have hdup2 : CheckDuplicate (lookupOfStore st.store) addr
        { stagedBlob c content with Reference := n } = false := by
      revert hdup
      cases CheckDuplicate (lookupOfStore st.store) addr
        { stagedBlob c content with Reference := n } <;> simp
    simp [stagedBlob, Blob.Close, Blob.Write, NewBlob] at hdup2
    cases uploadOk with
    | true =>
      simp [multiUpload, ReaderToBlob, UploadBlob, stagedBlob, Blob.Close, Blob.Write,
        Blob.Size, Blob.UncompressedSize, Blob.Hash, NewBlob, hdup2]
    | false =>
      simp [multiUpload, ReaderToBlob, UploadBlob, stagedBlob, Blob.Close, Blob.Write,
        Blob.Size, Blob.UncompressedSize, Blob.Hash, NewBlob, hdup2]

/-- C1: refuted evaluation.  Uploading the same five payload bytes twice
through multiUpload performs two store writes and reports two uploaded
lines, never a duplicate-skip: CheckDuplicate formats the Hash method
value instead of calling it, so the key it queries is unrelated to the key
UploadBlob wrote.  The directory handler contains no dedup call at all and
also writes a second time for an identical payload. -/
theorem c1_dedup_never_fires :
    multiUpload idCodec (fun b => b) "0x4a8b40"
        [⟨true, true, none, [104, 101, 108, 108, 111], true, "a.txt"⟩,
         ⟨true, true, none, [104, 101, 108, 108, 111], true, "a.txt"⟩] ⟨[], 0, []⟩
      = RunEnd.finished ⟨[("blob/68656c6c6f", ⟨5, 5, "a.txt", false⟩)], 2,
          [Outcome.uploadedLine "a.txt", Outcome.uploadedLine "a.txt"]⟩
    ∧ checkKeyOf "0x4a8b40" ≠ uploadKeyOf [104, 101, 108, 108, 111]
    ∧ directoryUpload idCodec (fun b => b) true [104, 101, 108, 108, 111] true ⟨[], 0, []⟩
        = RunEnd.finished ⟨[("blob/68656c6c6f", ⟨5, 5, "", true⟩)], 1, [Outcome.dirDoneLine]⟩
    ∧ directoryUpload idCodec (fun b => b) true [104, 101, 108, 108, 111] true
          ⟨[("blob/68656c6c6f", ⟨5, 5, "", true⟩)], 1, [Outcome.dirDoneLine]⟩
        = RunEnd.finished ⟨[("blob/68656c6c6f", ⟨5, 5, "", true⟩)], 2,
            [Outcome.dirDoneLine, Outcome.dirDoneLine]⟩ := by
  refine ⟨by decide, by decide, by decide, by decide⟩

/-- C2: for every byte sequence streamed through the composite writer as a
sequence of chunks and then finalized, the content hash is the digest of
exactly the concatenation of the raw chunks — stated for every digest
function, hence in particular for sha256: compression neither adds nor
drops bytes seen by the hash accumulator. -/
theorem c2_hash_observes_exact_bytes (c : Codec) (digest : List Nat → List Nat)
    (chunks : List (List Nat)) :
    Blob.Hash digest (Blob.Close c (writeChunks NewBlob chunks)) = digest chunks.flatten := by
  simp [Blob.Hash, close_hwInput, writeChunks_hwInput, NewBlob]

/-- C3: for every byte sequence streamed through the composite writer as
chunks and finalized by Close (which flushes the buffered compressor into
the staging file), decompressing the staged bytes reproduces exactly the
concatenated input. -/
theorem c3_staging_roundtrip (c : Codec) (chunks : List (List Nat)) :
    c.decompress ((Blob.Close c (writeChunks NewBlob chunks)).fileBytes) = chunks.flatten := by
  have hcl : (writeChunks NewBlob chunks).gwClosed = false := by
    rw [writeChunks_gwClosed]
    rfl
  have hfb : (writeChunks NewBlob chunks).fileBytes = [] := by
    rw [writeChunks_fileBytes]
    rfl
  have hgi : (writeChunks NewBlob chunks).gwInput = chunks.flatten := by
    rw [writeChunks_gwInput]
    rfl
  unfold Blob.Close
  rw [hcl]
  simp [hfb, hgi, c.roundtrip]

/-- C4: refuted evaluation.  Extracting a regular-file entry with payload
[1, 2] over an existing five-byte file leaves [1, 2, 9, 9, 9] on disk: the
file is opened with O_CREATE and O_RDWR but without O_TRUNC, so the stale
tail of the longer pre-existing file survives, contradicting the claim
that the target is truncated and equals exactly the entry payload. -/
theorem c4_untargz_keeps_stale_tail :
    Untargz "d" [⟨"f", TypeFlagT.tReg, 420, [1, 2], ""⟩]
        [("d/f", FsNode.file [9, 9, 9, 9, 9])]
      = Except.ok [("d/f", FsNode.file [1, 2, 9, 9, 9])]
    ∧ ([1, 2, 9, 9, 9] : List Nat) ≠ [1, 2] :=
  ⟨rfl, by decide⟩

/-- C5: counterexample.  In a two-item batch whose first item fails its
upload, the handler returns after the first error line: the second item is
never processed and gets no status line, refuting the claim that a failure
on one item does not prevent the remaining items from being processed. -/
theorem c5_upload_failure_aborts_batch :
    multiUpload idCodec (fun b => b) "0x4a8b40"
        [⟨true, true, none, [1], false, "a"⟩, ⟨true, true, none, [2], true, "b"⟩] ⟨[], 0, []⟩
      = RunEnd.finished ⟨[], 0, [Outcome.errLine]⟩
    ∧ Outcome.uploadedLine "b" ∉ [Outcome.errLine]
    ∧ Outcome.replacedLine "b" ∉ [Outcome.errLine] := by
  refine ⟨by decide, by decide, by decide⟩

/-- C5 (amended): only a failure of the item's Open call is item-local — it
is skipped silently and the remaining items are processed; a staging
(ReaderToBlob) failure reports an error line and aborts the loop with the
batch state unchanged apart from that line, and an upload failure likewise
aborts: the run on the full batch equals the run on the failing item
alone, so the remaining items are never processed. -/
theorem c5_item_failure_policy (c : Codec) (digest : List Nat → List Nat)
    (addr : String) (item : Item) (rest : List Item) (st : RunState) :
    (item.openOk = false →
      multiUpload c digest addr (item :: rest) st = multiUpload c digest addr rest st)
    ∧ (∀ m, item.openOk = true → item.tmpOk = true → item.copyErr = some m →
      multiUpload c digest addr (item :: rest) st
        = RunEnd.finished { st with out := st.out ++ [Outcome.errLine] })
    ∧ (item.openOk = true → item.tmpOk = true → item.copyErr = none →
      CheckDuplicate (lookupOfStore st.store) addr
        { stagedBlob c item.content with Reference := item.Filename } = false →
      item.uploadOk = false →
      multiUpload c digest addr (item :: rest) st
        = multiUpload c digest addr [item] st) := by
  refine ⟨?_, ?_, ?_⟩
  · intro h
    simp [multiUpload, h]
  · intro m h1 h2 h3
    simp [multiUpload, ReaderToBlob, h1, h2, h3]
  · intro h1 h2 h3 hdup h5
    simp [stagedBlob, Blob.Close, Blob.Write, NewBlob] at hdup
    simp [multiUpload, ReaderToBlob, UploadBlob, stagedBlob, Blob.Close, Blob.Write, NewBlob,
      h1, h2, h3, h5, hdup]

/-- Witness for the amended C5 theorem at a concrete batch: the first item
fails its upload, and the two-item run equals the one-item run. -/
theorem c5_item_failure_policy_witness :
    multiUpload idCodec (fun b => b) "w"
        [⟨true, true, none, [1], false, "x"⟩, ⟨true, true, none, [2], true, "y"⟩] ⟨[], 0, []⟩
      = multiUpload idCodec (fun b => b) "w" [⟨true, true, none, [1], false, "x"⟩] ⟨[], 0, []⟩ :=
  (c5_item_failure_policy idCodec (fun b => b) "w" ⟨true, true, none, [1], false, "x"⟩
      [⟨true, true, none, [2], true, "y"⟩] ⟨[], 0, []⟩).2.2 rfl rfl rfl (by decide) rfl

/-- C6: counterexample.  Because CheckDuplicate queries the malformed
constant key rather than the hash-derived key, a store holding the blob's
hash-derived key with a MISMATCHED size (99 against a local compressed
size of 3) still produces a true duplicate verdict once the malformed key
resolves with a matching size — refuting the claim as stated over the
hash-derived key. -/
theorem c6_size_check_wrong_key_counterexample :
    CheckDuplicate
        (lookupOfStore [("blob/010203", ⟨99, 3, "", false⟩),
          (checkKeyOf "0x4a8b40", ⟨3, 0, "", false⟩)])
        "0x4a8b40" (stagedBlob idCodec [1, 2, 3]) = true
    ∧ uploadKeyOf ((stagedBlob idCodec [1, 2, 3]).Hash (fun b => b)) = "blob/010203"
    ∧ storeGet [("blob/010203", ⟨99, 3, "", false⟩),
          (checkKeyOf "0x4a8b40", ⟨3, 0, "", false⟩)] "blob/010203"
        = some ⟨99, 3, "", false⟩
    ∧ (stagedBlob idCodec [1, 2, 3]).Size = 3
    ∧ (99 : Nat) ≠ 3 := by
  refine ⟨by decide, by decide, by decide, by decide, by decide⟩

/-- C6 (amended): for the key CheckDuplicate actually queries, the size
guard is exact — the checker returns true precisely when the lookup of
that key resolves an object whose declared size equals the local blob's
compressed size; any size mismatch or lookup failure yields false. -/
theorem c6_size_guard_on_queried_key (lookup : String → LookupOutcome) (addr : String)
    (blob : Blob) :
    CheckDuplicate lookup addr blob = true ↔
      lookup (checkKeyOf addr) = LookupOutcome.found blob.Size := by
  simp only [CheckDuplicate]
  cases h : lookup (checkKeyOf addr) with
  | getErr => simp
  | statErr => simp
  | found size =>
    by_cases hs : blob.Size = size
    · subst hs
      simp
    · simp [hs]
      omega

/-- C7: every dedup lookup failure (GetObject error or a failing Stat,
which also covers an absent object) makes CheckDuplicate return false
without propagating any error, and an item whose dedup lookup finds
nothing proceeds to the UploadBlob call: the loop records a store write,
an uploaded line, and continues with the remaining items. -/
theorem c7_lookup_failure_conservative (lookup : String → LookupOutcome) (addr : String)
    (blob : Blob) (c : Codec) (digest : List Nat → List Nat) (item : Item)
    (rest : List Item) (st : RunState) :
    (lookup (checkKeyOf addr) = LookupOutcome.getErr ∨
        lookup (checkKeyOf addr) = LookupOutcome.statErr →
      CheckDuplicate lookup addr blob = false)
    ∧ (item.openOk = true → item.tmpOk = true → item.copyErr = none →
      storeGet st.store (checkKeyOf addr) = none →
      item.uploadOk = true →
      multiUpload c digest addr (item :: rest) st
        = multiUpload c digest addr rest
            { store := storePut st.store (uploadKeyOf (digest item.content))
                ⟨(stagedBlob c item.content).Size, (stagedBlob c item.content).UncompressedSize,
                 item.Filename, false⟩
              putCount := st.putCount + 1
              out := st.out ++ [Outcome.uploadedLine item.Filename] }) := by
  constructor
  · rintro (h | h) <;> simp [CheckDuplicate, h]
  · intro h1 h2 h3 h4 h5
    have hdup : CheckDuplicate (lookupOfStore st.store) addr
        { stagedBlob c item.content with Reference := item.Filename } = false := by
      simp [CheckDuplicate, lookupOfStore, h4]
    exact multiUpload_step_upload c digest addr item rest st h1 h2 h3 hdup h5

/-- Witness for the C7 theorem: a backend lookup error yields false, and a
concrete item whose dedup lookup finds nothing goes through the upload
call. -/
theorem c7_lookup_failure_conservative_witness :
    CheckDuplicate (fun _ => LookupOutcome.getErr) "w" NewBlob = false
    ∧ multiUpload idCodec (fun b => b) "w" [⟨true, true, none, [1], true, "x"⟩] ⟨[], 0, []⟩
        = multiUpload idCodec (fun b => b) "w" []
            { store := storePut [] (uploadKeyOf [1])
                ⟨(stagedBlob idCodec [1]).Size, (stagedBlob idCodec [1]).UncompressedSize,
                 "x", false⟩
              putCount := 1
              out := [Outcome.uploadedLine "x"] } :=
  ⟨(c7_lookup_failure_conservative (fun _ => LookupOutcome.getErr) "w" NewBlob idCodec
      (fun b => b) ⟨true, true, none, [1], true, "x"⟩ [] ⟨[], 0, []⟩).1 (Or.inl rfl),
   (c7_lookup_failure_conservative (fun _ => LookupOutcome.getErr) "w" NewBlob idCodec
      (fun b => b) ⟨true, true, none, [1], true, "x"⟩ [] ⟨[], 0, []⟩).2 rfl rfl rfl rfl rfl⟩

/-- C8: counterexample, in two parts.  First, two trees with IDENTICAL
relative paths, permission bits, file contents, owners, and all
timestamps (modification, access, and change times alike), archived from
the roots /a and /z, yield different streams: the name computation
removes EVERY occurrence of the root string from the walked path, so the
entry b/a of the tree rooted at /a is emitted under the mangled name b —
archiving is not independent of where the tree lives.  Second, even at
one fixed root, the same tree with a different access time archives to a
different stream: tar.FileInfoHeader copies atime and ctime from the
stat, the code resets only the modification time, and the writer encodes
the times as PAX records — so the output is not independent of when the
archiving runs either. -/
theorem c8_root_string_breaks_determinism :
    TarDir (String.toList "/a")
        [⟨[], 493, 0, WalkNode.wdir, 1000, 1000, String.toList "u", String.toList "g", 3, 4⟩,
         ⟨String.toList "b", 493, 0, WalkNode.wdir, 1000, 1000,
          String.toList "u", String.toList "g", 3, 4⟩,
         ⟨String.toList "b/a", 420, 0, WalkNode.wreg [7], 1000, 1000,
          String.toList "u", String.toList "g", 3, 4⟩]
      ≠ TarDir (String.toList "/z")
        [⟨[], 493, 0, WalkNode.wdir, 1000, 1000, String.toList "u", String.toList "g", 3, 4⟩,
         ⟨String.toList "b", 493, 0, WalkNode.wdir, 1000, 1000,
          String.toList "u", String.toList "g", 3, 4⟩,
         ⟨String.toList "b/a", 420, 0, WalkNode.wreg [7], 1000, 1000,
          String.toList "u", String.toList "g", 3, 4⟩]
    ∧ TarDir (String.toList "/r")
        [⟨String.toList "b", 420, 0, WalkNode.wreg [7], 1000, 1000,
          String.toList "u", String.toList "g", 3, 4⟩]
      ≠ TarDir (String.toList "/r")
        [⟨String.toList "b", 420, 0, WalkNode.wreg [7], 1000, 1000,
          String.toList "u", String.toList "g", 5, 4⟩] := by
  refine ⟨by decide, by decide⟩

/-- C8 (amended): for trees whose root path string does not reoccur inside
any entry path (and whose root entry is not itself a symlink), and which
agree on every stat-derived header field other than the modification time
— permission bits, entry kinds and contents, owner ids and names, access
and change times, device numbers — TarDir is deterministic: the streams
are byte-identical for arbitrary modification times (the header
modification time is forced to the fixed sentinel) and arbitrary
(nonempty) root locations. -/
theorem c8_tarDir_deterministic (src1 src2 : List Char) (es1 es2 : List WalkEntry)
    (h1 : src1 ≠ []) (h2 : src2 ≠ [])
    (hocc1 : ∀ e ∈ es1, e.rel ≠ [] → containsSub src1 (sepChar :: e.rel) = false)
    (hocc2 : ∀ e ∈ es2, e.rel ≠ [] → containsSub src2 (sepChar :: e.rel) = false)
    (hroot1 : ∀ e ∈ es1, e.rel = [] → e.node ≠ WalkNode.wsym)
    (hroot2 : ∀ e ∈ es2, e.rel = [] → e.node ≠ WalkNode.wsym)
    (hk : es1.map keyPart = es2.map keyPart) :
    TarDir src1 es1 = TarDir src2 es2 := by
  unfold TarDir
  have e1 : es1.map (entryOut src1) = es1.map (fun e => canonOut (keyPart e)) :=
    List.map_congr_left (fun e he => entryOut_eq_canon src1 e h1 (hocc1 e he) (hroot1 e he))
  have e2 : es2.map (entryOut src2) = es2.map (fun e => canonOut (keyPart e)) :=
    List.map_congr_left (fun e he => entryOut_eq_canon src2 e h2 (hocc2 e he) (hroot2 e he))
  rw [e1, e2]
  calc es1.map (fun e => canonOut (keyPart e))
      = (es1.map keyPart).map canonOut := by
        rw [List.map_map]
        rfl
    _ = (es2.map keyPart).map canonOut := by rw [hk]
    _ = es2.map (fun e => canonOut (keyPart e)) := by
        rw [List.map_map]
        rfl

/-- Witness for the amended C8 theorem: the same tree, with the same
owners and access and change times, archived with modification times 5
and 6 against 77 and 88, yields identical streams. -/
theorem c8_tarDir_deterministic_witness :
    TarDir (String.toList "/r")
        [⟨[], 493, 5, WalkNode.wdir, 1000, 1000, String.toList "u", String.toList "g", 3, 4⟩,
         ⟨String.toList "b", 420, 6, WalkNode.wreg [7], 1000, 1000,
          String.toList "u", String.toList "g", 3, 4⟩]
      = TarDir (String.toList "/r")
        [⟨[], 493, 77, WalkNode.wdir, 1000, 1000, String.toList "u", String.toList "g", 3, 4⟩,
         ⟨String.toList "b", 420, 88, WalkNode.wreg [7], 1000, 1000,
          String.toList "u", String.toList "g", 3, 4⟩] :=
  c8_tarDir_deterministic (String.toList "/r") (String.toList "/r") _ _
    (by decide) (by decide) (by decide) (by decide) (by decide) (by decide) (by decide)

/-- C9: the reference label never influences addressing, deduplication, or
control flow.  For blobs differing only in Reference, the hash-derived
storage key and the dedup verdict coincide; two single-item runs on
identical payload bytes under different file names produce the same run
shape (same store keys and sizes, same write count, same status-line
kinds) once the reference metadata is erased; and on the successful
upload path the label lands exactly in the stored reference metadata and
the status line. -/
theorem c9_reference_noninterference (c : Codec) (digest : List Nat → List Nat)
    (addr : String) (st : RunState) (content : List Nat) (tmpOk : Bool)
    (copyErr : Option String) (uploadOk : Bool) (n1 n2 r1 r2 : String)
    (lookup : String → LookupOutcome) (blob : Blob) :
    (uploadKeyOf (Blob.Hash digest { blob with Reference := r1 })
      = uploadKeyOf (Blob.Hash digest { blob with Reference := r2 }))
    ∧ (CheckDuplicate lookup addr { blob with Reference := r1 }
      = CheckDuplicate lookup addr { blob with Reference := r2 })
    ∧ RunEnd.shape (multiUpload c digest addr [⟨true, tmpOk, copyErr, content, uploadOk, n1⟩] st)
      = RunEnd.shape (multiUpload c digest addr [⟨true, tmpOk, copyErr, content, uploadOk, n2⟩] st)
    ∧ (storeGet st.store (checkKeyOf addr) = none →
      multiUpload c digest addr [⟨true, true, none, content, true, n1⟩] st
        = RunEnd.finished
            { store := storePut st.store (uploadKeyOf (digest content))
                ⟨(stagedBlob c content).Size, (stagedBlob c content).UncompressedSize, n1, false⟩
              putCount := st.putCount + 1
              out := st.out ++ [Outcome.uploadedLine n1] }) := by
  refine ⟨rfl, (checkDuplicate_ref_irrel lookup addr blob r1).trans
    (checkDuplicate_ref_irrel lookup addr blob r2).symm, ?_, ?_⟩
  · cases tmpOk with
    | false => rfl
    | true =>
      cases copyErr with
      | some m => rfl
      | none =>
        rw [multiUpload_single c digest addr content uploadOk n1 st,
          multiUpload_single c digest addr content uploadOk n2 st]
        by_cases hdup : CheckDuplicate (lookupOfStore st.store) addr (stagedBlob c content)
            = true
        · simp [hdup, RunEnd.shape, RunState.shape, Outcome.shape]
        · have hdup2 : CheckDuplicate (lookupOfStore st.store) addr (stagedBlob c content)
              = false := by
            revert hdup
            cases CheckDuplicate (lookupOfStore st.store) addr (stagedBlob c content) <;> simp
          cases uploadOk with
          | true =>
            have hmap := storePut_map_eraseRef st.store (uploadKeyOf (digest content))
              ⟨(stagedBlob c content).Size, (stagedBlob c content).UncompressedSize, n1, false⟩
              ⟨(stagedBlob c content).Size, (stagedBlob c content).UncompressedSize, n2, false⟩
              rfl
            simp [hdup2, RunEnd.shape, RunState.shape, Outcome.shape, hmap]
          | false => simp [hdup2, RunEnd.shape, RunState.shape, Outcome.shape]
  · intro h4
    rw [multiUpload_single]
    have hdup : CheckDuplicate (lookupOfStore st.store) addr (stagedBlob c content)
        = false := by
      simp [CheckDuplicate, lookupOfStore, h4]
    simp [hdup]

/-- Witness for the C9 theorem at a concrete input, exercising the
successful-upload conjunct against the empty store. -/
theorem c9_reference_noninterference_witness :
    multiUpload idCodec (fun b => b) "w" [⟨true, true, none, [1], true, "x"⟩] ⟨[], 0, []⟩
      = RunEnd.finished
          { store := storePut [] (uploadKeyOf [1])
              ⟨(stagedBlob idCodec [1]).Size, (stagedBlob idCodec [1]).UncompressedSize,
               "x", false⟩
            putCount := 1
            out := [Outcome.uploadedLine "x"] } :=
  (c9_reference_noninterference idCodec (fun b => b) "w" ⟨[], 0, []⟩ [1] true none true
    "x" "y" "x" "y" (fun _ => LookupOutcome.getErr) NewBlob).2.2.2 rfl

/-- C10: refuted evaluation.  When the temporary-file creation inside
NewBlob fails, ReaderToBlob does not propagate the error: it calls Close
on the nil blob pointer during cleanup and panics with the nil-pointer
dereference runtime error; on the successful path it returns the staged
blob. -/
theorem c10_readerToBlob_nil_cleanup_panics :
    ReaderToBlob idCodec false none [104] = GoResult.panicked nilDerefMsg
    ∧ ReaderToBlob idCodec true none [104] = GoResult.ok (stagedBlob idCodec [104]) :=
  ⟨rfl, rfl⟩
